import Mathlib

set_option maxRecDepth 8000

/-!
Shallow embedding of the biodiversity-bot taxon-to-media resolution engine.

The TypeScript sources embedded here:
- search-macaulay-for-taxon.ts: the post-processing of a Macaulay search
  response (dead-tag filter, asset-id pool, lookup capability) and the
  taxonomy best-match heuristic findBestTaxonomyMatch;
- the bot driver (src/unnamed/part_000): CSV-record sampling with the mammal
  reroll policy, the bird and mammal post-generation loops, the family-result
  classifier, final asset verification and post-text construction.

Network calls, the browser session and CSV file reading are modelled as
environments (function-valued records) and plain lists; all JavaScript string
operations used by the code are re-implemented over character lists with
structural recursion so every definition evaluates by kernel reduction.
Randomness (JS Math.random scaled to an index) is modelled by a consumed list
of natural numbers, each draw taken modulo the list length, which produces
exactly the valid indices the JS expression can produce.
-/

/-! String primitives mirroring the JavaScript string operations. -/

/-- Boolean list-prefix test (pattern, then target). -/
def isPrefixList : List Char → List Char → Bool
  | [], _ => true
  | _ :: _, [] => false
  | p :: ps, c :: cs => p == c && isPrefixList ps cs

/-- Substring containment over character lists (haystack, needle), the
semantics of JavaScript String.prototype.includes. -/
def containsSub : List Char → List Char → Bool
  | [], needle => needle.isEmpty
  | c :: cs, needle => isPrefixList needle (c :: cs) || containsSub cs needle

/-- JavaScript s.includes(pat). -/
def strContains (s pat : String) : Bool := containsSub s.data pat.data

/-- JavaScript s.toLowerCase() (ASCII-adequate, per-character lowering). -/
def lowerStr (s : String) : String := ⟨s.data.map Char.toLower⟩

/-- JavaScript s.startsWith(pat). -/
def strStartsWith (s pat : String) : Bool := isPrefixList pat.data s.data

/-- Splitting worker: fuel-indexed so that recursion is structural; fuel is
instantiated with the string length, which bounds the number of steps. -/
def splitAux (needle : List Char) : Nat → List Char → List Char → List (List Char)
  | 0, rest, acc => [acc.reverse ++ rest]
  | _ + 1, [], acc => [acc.reverse]
  | fuel + 1, c :: cs, acc =>
    if needle ≠ [] ∧ isPrefixList needle (c :: cs) = true then
      acc.reverse :: splitAux needle fuel ((c :: cs).drop needle.length) []
    else splitAux needle fuel cs (c :: acc)

/-- JavaScript s.split(sep) for a nonempty separator string (every separator
used by the source is nonempty). -/
def splitStr (s sep : String) : List String :=
  (splitAux sep.data s.data.length s.data []).map (fun cs => ⟨cs⟩)

/-- Whitespace class of the JavaScript regexes and trim used by the source. -/
def isJsSpace (c : Char) : Bool :=
  c == ' ' || c == '\t' || c == '\n' || c == '\r' || c == '\x0b' || c == '\x0c'

/-- JavaScript s.trim(). -/
def trimStr (s : String) : String :=
  ⟨((s.data.dropWhile isJsSpace).reverse.dropWhile isJsSpace).reverse⟩

/-- JavaScript Array.prototype.join(sep) over strings. -/
def strIntercalate (sep : String) : List String → String
  | [] => ""
  | a :: rest => rest.foldl (fun acc b => acc ++ sep ++ b) a

/-- Replacement worker for a first-occurrence string replace. -/
def replaceFirstAux (needle rep : List Char) : Nat → List Char → List Char
  | 0, rest => rest
  | _ + 1, [] => []
  | fuel + 1, c :: cs =>
    if needle ≠ [] ∧ isPrefixList needle (c :: cs) = true then
      rep ++ (c :: cs).drop needle.length
    else c :: replaceFirstAux needle rep fuel cs

/-- JavaScript s.replace(needle, rep) with a string pattern: replaces only the
first occurrence (an empty pattern matches at position zero). -/
def replaceFirstStr (s needle rep : String) : String :=
  if needle.data.isEmpty then ⟨rep.data ++ s.data⟩
  else ⟨replaceFirstAux needle.data rep.data s.data.length s.data⟩

/-- Case-insensitive character equality, for the case-insensitive regex. -/
def charEqCI (a b : Char) : Bool := a.toLower == b.toLower

/-- Case-insensitive list-prefix test. -/
def isPrefixListCI : List Char → List Char → Bool
  | [], _ => true
  | _ :: _, [] => false
  | p :: ps, c :: cs => charEqCI p c && isPrefixListCI ps cs

/-- Alternation words of the subspecies-indicator regex in the driver. -/
def subspeciesIndicatorWords : List String :=
  ["Atlantic", "Pacific", "Eastern", "Western", "Northern", "Southern"]

/-- Try to match the regex fragment: one-or-more whitespace, an indicator word
(case-insensitive), one-or-more whitespace, at the head of the list; returns
the remainder after the match. -/
def matchSubspAt (cs : List Char) : Option (List Char) :=
  if (cs.takeWhile isJsSpace).isEmpty then none
  else
    let rest1 := cs.dropWhile isJsSpace
    (subspeciesIndicatorWords.filterMap (fun w =>
      if isPrefixListCI w.data rest1 = true then
        let rest2 := rest1.drop w.data.length
        if (rest2.takeWhile isJsSpace).isEmpty then none
        else some (rest2.dropWhile isJsSpace)
      else none)).head?

/-- Scan worker for the first-match subspecies-indicator removal. -/
def removeSubspAux : Nat → List Char → List Char
  | 0, cs => cs
  | _ + 1, [] => []
  | fuel + 1, c :: cs =>
    match matchSubspAt (c :: cs) with
    | some rest => rest
    | none => c :: removeSubspAux fuel cs

/-- The driver fallback comName.replace(whitespace+indicator+whitespace, empty),
first match only, case-insensitive. -/
def removeSubspIndicator (s : String) : String := ⟨removeSubspAux s.data.length s.data⟩

/-- Try to match optional whitespace, the literal Continent tag in parentheses,
optional whitespace, at the head of the list. -/
def matchContinentAt (cs : List Char) : Option (List Char) :=
  let rest1 := cs.dropWhile isJsSpace
  if isPrefixList "(Continent)".data rest1 = true then
    some ((rest1.drop "(Continent)".data.length).dropWhile isJsSpace)
  else none

/-- Scan worker for the global Continent-tag removal. -/
def removeContinentAux : Nat → List Char → List Char
  | 0, cs => cs
  | _ + 1, [] => []
  | fuel + 1, c :: cs =>
    match matchContinentAt (c :: cs) with
    | some rest => removeContinentAux fuel rest
    | none => c :: removeContinentAux fuel cs

/-- The driver c.replace(whitespace* Continent-tag whitespace*, empty), global. -/
def removeContinentTag (s : String) : String := ⟨removeContinentAux s.data.length s.data⟩

/-- JavaScript truthiness of an optional string field: present and nonempty. -/
def truthyS : Option String → Bool
  | some s => !(s == "")
  | none => false

/-! Data model: Macaulay media results and their embedded taxonomy. -/

/-- Embedded taxonomy of a media result, with every field optional as in the
raw JSON. -/
structure Taxonomy where
  sciName : Option String
  comName : Option String
  category : Option String
deriving DecidableEq

/-- Shape of the tags field of a raw result: a list of strings, a single
string, or anything else (absent); mirrors the Array.isArray / typeof string /
otherwise branching of the filter. -/
inductive TagsField where
  | list (tags : List String)
  | str (s : String)
  | missing
deriving DecidableEq

/-- One raw record of the media-index search response. -/
structure MediaItem where
  assetId : Option Int
  tags : TagsField
  taxonomy : Option Taxonomy
deriving DecidableEq

/-! MediaSearchSession: the pure post-processing of searchMacaulayForTaxon
(search-macaulay-for-taxon.ts, lines 62-86) on a well-formed array response. -/

/-- One tag contains the substring dead, case-insensitively. -/
def tagHasDead (tag : String) : Bool := strContains (lowerStr tag) "dead"

/-- The filter predicate of searchMacaulayForTaxon: keep the item unless its
tags (list or string) contain dead; items with no tag field are kept. -/
def itemKeptByDeadFilter (item : MediaItem) : Bool :=
  match item.tags with
  | .list tags => !(tags.any tagHasDead)
  | .str s => !(tagHasDead s)
  | .missing => true

/-- The dead-tag exclusion predicate of the spec: the tag field, whether a
list or a single string, contains the substring dead case-insensitively. -/
def tagsContainDead : TagsField → Bool
  | .list tags => tags.any tagHasDead
  | .str s => tagHasDead s
  | .missing => false

/-- Return value of searchMacaulayForTaxon on a well-formed array: the asset-id
pool plus the filtered records backing the getAssetDetails closure. -/
structure MacaulaySearch where
  assetIds : List Int
  results : List MediaItem
deriving DecidableEq

/-- The getAssetDetails closure body: find the first filtered record with the
requested asset id. -/
def lookupAssetDetails (results : List MediaItem) (assetId : Int) : Option MediaItem :=
  results.find? (fun item => item.assetId == some assetId)

/-- Post-processing of searchMacaulayForTaxon once the response parsed to an
array: drop dead-tagged results, collect the numeric asset ids, and keep the
filtered records for the lookup capability. -/
def searchMacaulayForTaxon (jsonData : List MediaItem) : MacaulaySearch :=
  let filteredResults := jsonData.filter itemKeptByDeadFilter
  { assetIds := filteredResults.filterMap MediaItem.assetId
    results := filteredResults }

/-- Lookup capability returned by searchMacaulayForTaxon. -/
def MacaulaySearch.getAssetDetails (c : MacaulaySearch) (assetId : Int) : Option MediaItem :=
  lookupAssetDetails c.results assetId

/-! TaxonomyMatcher: findBestTaxonomyMatch
(search-macaulay-for-taxon.ts, lines 101-128). -/

/-- One candidate taxon descriptor of the name-search response. -/
structure TaxonomyItem where
  name : Option String
  code : Option String
deriving DecidableEq

/-- Name half of the priority-1 test: the lowercased display name contains the
separator-plus-search-term string (space-dash-space or dash-space variant). -/
def nameMatchPred (searchLower : String) (item : TaxonomyItem) : Bool :=
  let itemName := (item.name.map lowerStr).getD ""
  strContains itemName (" - " ++ searchLower) || strContains itemName ("- " ++ searchLower)

/-- Rank half of the tests: the code string contains comma-plus-searchType. -/
def typeMatchPred (searchType : String) (item : TaxonomyItem) : Bool :=
  match item.code with
  | some code => strContains code ("," ++ searchType)
  | none => false

/-- Priority-1 predicate of findBestTaxonomyMatch. -/
def exactMatchPred (searchTerm searchType : String) (item : TaxonomyItem) : Bool :=
  nameMatchPred (lowerStr searchTerm) item && typeMatchPred searchType item

/-- Best-match heuristic: first priority-1 match, else first rank match, else
the first candidate; none only on an empty candidate list. -/
def findBestTaxonomyMatch (taxonomyData : List TaxonomyItem) (searchTerm searchType : String) :
    Option TaxonomyItem :=
  if taxonomyData.isEmpty then none
  else
    match taxonomyData.filter (exactMatchPred searchTerm searchType) with
    | m :: _ => some m
    | [] =>
      match taxonomyData.filter (typeMatchPred searchType) with
      | m :: _ => some m
      | [] => taxonomyData.head?

/-- Modelled from the spec: the scientific-name segment of a display name of
the form common-name, separator, scientific-name (the segment after the
space-dash-space separator). Used only to state claim C3 as written. -/
def specSciNameSegment (item : TaxonomyItem) : String :=
  (splitStr (item.name.getD "") " - ").getD 1 ""

/-- Modelled from the spec: claim C3 priority-1 predicate as worded — the
scientific-name segment case-insensitively contains the search term anywhere
within the segment, and the code segment matches the requested rank. -/
def specPriority1Pred (searchTerm searchType : String) (item : TaxonomyItem) : Bool :=
  strContains (lowerStr (specSciNameSegment item)) (lowerStr searchTerm) &&
    typeMatchPred searchType item

/-! AssetTaxonomyClassifier: the family-result filter bodies of
generateMammalPost (part_000 lines 382-419 targeted, 465-499 untargeted).
The two bodies are identical except that the targeted one pins the sampled
species; the optional target argument captures both. The dead-tag check that
follows the unconditional return-false in the source is unreachable and hence
absent from the semantics. -/

/-- Per-asset filter body: reject missing taxonomy or missing/empty scientific
name; accept species rank; accept subspecies rank when untargeted, or when the
subspecies scientific name starts with the target species plus a space. -/
def speciesSpecificTest (target : Option String) (assetDetails : Option MediaItem) : Bool :=
  match assetDetails.bind MediaItem.taxonomy with
  | none => false
  | some tax =>
    if !(truthyS tax.sciName) then false
    else if tax.category == some "species" then true
    else if tax.category == some "subspecies" then
      match target with
      | some targetSpecies => strStartsWith (tax.sciName.getD "") (targetSpecies ++ " ")
      | none => true
    else false

/-- Subspecies-name normalization used by the driver at final selection, for
both the reference-list re-lookup (lines 545-554) and the displayed name
(lines 585-590): take the first two space-separated parts when there are at
least two, otherwise leave the name unchanged. -/
def normalizeToSpecies (sciName : String) : String :=
  let parts := splitStr sciName " "
  if parts.length ≥ 2 then (parts.getD 0 "") ++ " " ++ (parts.getD 1 "") else sciName

/-- Normalized scientific name of an asset taxonomy: normalized to species for
subspecies rank, otherwise the name as-is. Shared by the re-lookup and the
display sites, which duplicate the identical computation in the source. -/
def normalizedSciNameFor (tax : Taxonomy) : String :=
  if tax.category == some "subspecies" then normalizeToSpecies (tax.sciName.getD "")
  else tax.sciName.getD ""

/-- Modelled from the spec: claim C5 usability predicate as worded, including
the disjunct that the normalized name equals the supplied target. Used only to
state claim C5 as written against the code classifier. -/
def specClassifierUsable (target : Option String) (item : MediaItem) : Bool :=
  match item.taxonomy with
  | none => false
  | some tax =>
    if !(truthyS tax.sciName) then false
    else if tax.category == some "species" then true
    else if tax.category == some "subspecies" then
      match target with
      | some t =>
        normalizeToSpecies (tax.sciName.getD "") == t ||
          strStartsWith (tax.sciName.getD "") (t ++ " ")
      | none => true
    else false

/-- Rank-case characterization of the classifier (the amended claim C5): a
result is usable exactly when taxonomy and a nonempty scientific name are
present and either the rank is species, or the rank is subspecies and — when a
target is pinned — the scientific name starts with the target plus a space. -/
def amendedUsable (target : Option String) (assetDetails : Option MediaItem) : Bool :=
  match assetDetails with
  | none => false
  | some item =>
    match item.taxonomy with
    | none => false
    | some tax =>
      truthyS tax.sciName &&
        (tax.category == some "species" ||
          (tax.category == some "subspecies" &&
            (match target with
             | some t => strStartsWith (tax.sciName.getD "") (t ++ " ")
             | none => true)))

/-! TaxonSampler: getRandomMammalRecord (part_000 lines 156-183). The do-while
with its reroll counter becomes structural recursion on the number of rerolls
still allowed (rerolls-left equals max-rerolls minus reroll-count, so the
source guard reroll-count less than max-rerolls is rerolls-left positive).
The returned reroll count is the observable the source logs. -/

/-- Reference entry of the mammal CSV. -/
structure MammalRecord where
  sciName : String
  mainCommonName : String
  order : String
  family : String
  continentDistribution : String
  biogeographicRealm : String
  iucnStatus : String
  distributionNotes : String
deriving DecidableEq, Inhabited

/-- Overrepresentation test of the sampler: rodent family Muridae, shrew
family Soricidae, or bat order Chiroptera. -/
def shouldReroll (m : MammalRecord) : Bool :=
  m.family == "Muridae" || m.family == "Soricidae" || m.order == "Chiroptera"

/-- Reroll loop of getRandomMammalRecord: draw an index, reroll while the draw
is overrepresented and rerolls remain, else accept (with no rerolls left the
draw is accepted even when overrepresented). -/
def getRandomMammalRecordGo (records : List MammalRecord) :
    Nat → List Nat → Nat → MammalRecord × List Nat × Nat
  | 0, rands, rerollCount =>
    (records.getD (rands.headD 0 % records.length) default, rands.tail, rerollCount)
  | left + 1, rands, rerollCount =>
    if shouldReroll (records.getD (rands.headD 0 % records.length) default) = true then
      getRandomMammalRecordGo records left rands.tail (rerollCount + 1)
    else (records.getD (rands.headD 0 % records.length) default, rands.tail, rerollCount)

/-- getRandomMammalRecord: up to 2 rerolls, then the draw is accepted anyway.
Returns the selected record, the unconsumed randomness, and the number of
rerolls performed. -/
def getRandomMammalRecord (records : List MammalRecord) (rands : List Nat) :
    MammalRecord × List Nat × Nat :=
  getRandomMammalRecordGo records 2 rands 0

/-! FallbackResolutionEngine: generateMammalPost (part_000 lines 337-641) and
generateBirdPost (lines 270-335). The searchMacaulayByTaxonomy calls are the
environment; a search outcome carries the asset-id pool and, when the session
returned its lookup capability, the filtered records backing it. -/

/-- IUCN category code to display-name map of the driver. -/
def IUCN_STATUS_MAP : List (String × String) :=
  [("EX", "Extinct"), ("EW", "Extinct in the Wild"), ("CR", "Critically Endangered"),
   ("EN", "Endangered"), ("VU", "Vulnerable"), ("NT", "Near Threatened"),
   ("LC", "Least Concern"), ("DD", "Data Deficient"), ("NE", "Not Evaluated")]

/-- Map lookup with undefined modelled as none. -/
def iucnLookup (status : String) : Option String :=
  (IUCN_STATUS_MAP.find? (fun p => p.1 == status)).map Prod.snd

/-- Outcome of one searchMacaulayByTaxonomy call: the asset-id pool, and the
records backing the getAssetDetails capability when it was supplied. -/
structure SearchResult where
  assetIds : List Int
  details : Option (List MediaItem)
deriving DecidableEq

/-- Environment: searchMacaulayByTaxonomy as a function of search term and
search type, none modelling a null (failed) outcome. -/
structure MacaulayEnv where
  search : String → String → Option SearchResult

/-- Observable events of the sampling loop: the start of a numbered attempt
and the fixed inter-attempt backoff in milliseconds. -/
inductive TraceEv where
  | attempt (n : Nat)
  | delay (ms : Nat)
deriving DecidableEq

/-- Errors thrown by the two post generators. -/
inductive PostError where
  | noRecords
  | testSpeciesNotFound (name : String)
  | noUsableTestMedia (name : String)
  | exhausted (attempts : Nat)
  | notSpeciesSpecific (category : Option String)
  | noSpeciesTaxonomy
  | textTooLong
  | birdExhausted (attempts : Nat)
deriving DecidableEq

/-- The loop guard: no search result yet, or an empty asset-id pool. -/
def poolEmpty : Option SearchResult → Bool
  | none => true
  | some sr => sr.assetIds.length == 0

/-- The acceptance guard: a search result with a nonempty asset-id pool. -/
def poolNonempty : Option SearchResult → Bool
  | none => false
  | some sr => !(sr.assetIds.length == 0)

/-- The family-tier block shared by the test-mode and sampling branches: when
the family search produced a nonempty pool with a lookup capability, keep only
the classifier-approved assets — a nonempty filtered pool is accepted (the
Bool is the break of the sampling loop), an empty one resets the result to
none; otherwise the family outcome is passed through unaccepted. -/
def familyStep (target : Option String) (res : Option SearchResult) :
    Option SearchResult × Bool :=
  match res with
  | some sr =>
    if sr.assetIds.length == 0 then (some sr, false)
    else
      match sr.details with
      | some details =>
        let speciesSpecificAssets :=
          sr.assetIds.filter (fun assetId =>
            speciesSpecificTest target (lookupAssetDetails details assetId))
        if speciesSpecificAssets.length == 0 then (none, false)
        else (some { sr with assetIds := speciesSpecificAssets }, true)
      | none => (some sr, false)
  | none => (none, false)

/-- Attempt budget of the mammal sampling loop. -/
def maxMammalAttempts : Nat := 5

/-- State leaving the sampling loop. -/
structure LoopState where
  searchResult : Option SearchResult
  selectedMammal : Option MammalRecord
  attempts : Nat
  rands : List Nat
  trace : List TraceEv
deriving DecidableEq

/-- Sampling loop of generateMammalPost (lines 438-519): while attempts remain
and no nonempty pool was accepted, draw a mammal, try the species tier, then
the family tier through the classifier; on a miss wait the fixed backoff when
attempts remain. Fuel is attempts-left, so the source guard attempts less
than max-attempts is fuel positive. -/
def mammalLoopGo (env : MacaulayEnv) (records : List MammalRecord) :
    Nat → Nat → Option SearchResult → Option MammalRecord → List Nat → List TraceEv →
    LoopState
  | 0, attempts, res, sel, rands, tr => ⟨res, sel, attempts, rands, tr⟩
  | left + 1, attempts, res, sel, rands, tr =>
    if poolEmpty res = true then
      match getRandomMammalRecord records rands with
      | (selectedMammal, rands2, _) =>
        if poolNonempty (env.search (replaceFirstStr selectedMammal.sciName "_" " ")
            "species") = true then
          ⟨env.search (replaceFirstStr selectedMammal.sciName "_" " ") "species",
           some selectedMammal, attempts + 1, rands2, tr ++ [TraceEv.attempt (attempts + 1)]⟩
        else if (familyStep none (env.search selectedMammal.family "family")).2 = true then
          ⟨(familyStep none (env.search selectedMammal.family "family")).1,
           some selectedMammal, attempts + 1, rands2, tr ++ [TraceEv.attempt (attempts + 1)]⟩
        else
          mammalLoopGo env records left (attempts + 1)
            (familyStep none (env.search selectedMammal.family "family")).1
            (some selectedMammal) rands2
            ((tr ++ [TraceEv.attempt (attempts + 1)]) ++
              (if attempts + 1 < maxMammalAttempts then [TraceEv.delay 5000] else []))
    else ⟨res, sel, attempts, rands, tr⟩

/-- Final output of the mammal resolution: the chosen asset, its own verified
taxonomy, the reference record used for distribution data, and the post text. -/
structure MammalPost where
  assetId : Int
  taxonomy : Taxonomy
  postMammal : MammalRecord
  text : String
deriving DecidableEq

/-- Taxonomy of the chosen asset, looked up through the lookup capability when
it exists (lines 530-534): the chosen record's taxonomy field. -/
def actualTaxonomyOf (details : Option (List MediaItem)) (randomAssetId : Int) :
    Option Taxonomy :=
  match details with
  | some ds => (lookupAssetDetails ds randomAssetId).bind MediaItem.taxonomy
  | none => none

/-- Re-classification of the chosen asset at final selection (lines 536-540):
performed only when the lookup capability exists; missing taxonomy or a rank
other than species and subspecies is a data-integrity failure. -/
def integrityCheck (details : Option (List MediaItem))
    (actualTaxonomy : Option Taxonomy) : Except PostError Unit :=
  match details with
  | none => .ok ()
  | some _ =>
    match actualTaxonomy with
    | none => .error (.notSpeciesSpecific none)
    | some t =>
      if t.category == some "species" || t.category == some "subspecies" then .ok ()
      else .error (.notSpeciesSpecific t.category)

/-- Final length guard of both generators (lines 634-636): a text over 300
characters is an error, otherwise the post is emitted. -/
def capPostText (randomAssetId : Int) (tax : Taxonomy) (postMammal : MammalRecord)
    (text2 : String) : Except PostError MammalPost :=
  if text2.length > 300 then .error .textTooLong
  else .ok { assetId := randomAssetId, taxonomy := tax, postMammal := postMammal,
             text := text2 }

/-- Reference-record re-resolution and post-text construction (lines 544-641):
look the asset's own normalized scientific name back up in the reference list
with the original sample as fallback, then build the text — name line, family
line, optional range line, optional IUCN footer — and enforce the
300-character limit. -/
def buildMammalPost (records : List MammalRecord) (actualTaxonomy : Option Taxonomy)
    (selectedMammal : MammalRecord) (randomAssetId : Int) : Except PostError MammalPost :=
  let postMammal :=
    match actualTaxonomy with
    | some tax =>
      if truthyS tax.sciName = true then
        match records.find? (fun m =>
            m.sciName == replaceFirstStr (normalizedSciNameFor tax) " " "_") with
        | some m => m
        | none => selectedMammal
      else selectedMammal
    | none => selectedMammal
  match actualTaxonomy with
  | none => .error .noSpeciesTaxonomy
  | some tax =>
    if truthyS tax.sciName && truthyS tax.comName &&
        (tax.category == some "species" || tax.category == some "subspecies") then
      let displayComName :=
        if tax.category == some "subspecies" then
          if !(postMammal.mainCommonName == "") then postMammal.mainCommonName
          else removeSubspIndicator (tax.comName.getD "")
        else tax.comName.getD ""
      let text0 := displayComName ++ " (" ++ normalizedSciNameFor tax ++ ")\n\nFamily " ++
        postMammal.family ++ "\n"
      let distributionInfo :=
        if !(postMammal.biogeographicRealm == "") then
          let base := strIntercalate ", "
            ((splitStr postMammal.biogeographicRealm "|").map trimStr)
          if !(postMammal.continentDistribution == "") then
            let continents := (splitStr postMammal.continentDistribution "|").map
              (fun c => removeContinentTag (trimStr c))
            if continents.length ≤ 3 then
              base ++ " (" ++ strIntercalate ", " continents ++ ")"
            else base
          else base
        else ""
      let footer := "IUCN status: " ++ (iucnLookup postMammal.iucnStatus).getD "Unknown"
      let text1 :=
        if !(distributionInfo == "") ∧
            distributionInfo.length + text0.length + footer.length < 280 then
          text0 ++ "Range: " ++ distributionInfo ++ "\n"
        else text0
      let text2 := if text1.length + footer.length < 300 then text1 ++ footer else text1
      capPostText randomAssetId tax postMammal text2
    else .error .noSpeciesTaxonomy

/-- Final selection of generateMammalPost (lines 522-641): reject an absent or
empty pool as exhaustion; pick an asset uniformly; re-classify it; then build
the post. -/
def finalizeMammal (records : List MammalRecord) (res : Option SearchResult)
    (selectedMammal : MammalRecord) (rands : List Nat) : Except PostError MammalPost :=
  match res with
  | none => .error (.exhausted maxMammalAttempts)
  | some sr =>
    if sr.assetIds.length == 0 then .error (.exhausted maxMammalAttempts)
    else
      match integrityCheck sr.details (actualTaxonomyOf sr.details
          (sr.assetIds.getD (rands.headD 0 % sr.assetIds.length) 0)) with
      | .error e => .error e
      | .ok _ =>
        buildMammalPost records
          (actualTaxonomyOf sr.details
            (sr.assetIds.getD (rands.headD 0 % sr.assetIds.length) 0))
          selectedMammal (sr.assetIds.getD (rands.headD 0 % sr.assetIds.length) 0)

/-- generateMammalPost: test-mode branch (lines 358-434) or sampling loop,
then the shared final selection; paired with the loop trace. -/
def generateMammalPost (env : MacaulayEnv) (records : List MammalRecord)
    (testSpeciesSciName : Option String) (rands : List Nat) :
    Except PostError MammalPost × List TraceEv :=
  if records.length == 0 then (.error .noRecords, [])
  else
    match testSpeciesSciName with
    | some name =>
      match records.find? (fun m => m.sciName == name) with
      | none => (.error (.testSpeciesNotFound name), [])
      | some testMammal =>
        let speciesFormattedSciName := replaceFirstStr testMammal.sciName "_" " "
        let sres := env.search speciesFormattedSciName "species"
        if poolNonempty sres = true then (finalizeMammal records sres testMammal rands, [])
        else
          let fres := env.search testMammal.family "family"
          let targetSpecies := replaceFirstStr testMammal.sciName "_" " "
          let after := (familyStep (some targetSpecies) fres).1
          if poolEmpty after = true then (.error (.noUsableTestMedia name), [])
          else (finalizeMammal records after testMammal rands, [])
    | none =>
      let st := mammalLoopGo env records maxMammalAttempts 0 none none rands []
      (finalizeMammal records st.searchResult (st.selectedMammal.getD default) st.rands,
       st.trace)

/-! generateBirdPost (part_000 lines 270-335). -/

/-- Reference entry of the bird CSV. -/
structure BirdRecord where
  Order : String
  Family : String
  Family_English_name : String
  Scientific_name : String
  English_name_AviList : String
  Range : String
  IUCN_Red_List_Category : String
  Species_code_Cornell_Lab : String
deriving DecidableEq, Inhabited

/-- Environment of the bird generator: searchMacaulayForTaxon by species code,
none modelling a null outcome, some of the asset-id pool otherwise. -/
structure BirdEnv where
  searchByCode : String → Option (List Int)

/-- Final output of the bird generator. -/
structure BirdPost where
  assetId : Int
  text : String
deriving DecidableEq

/-- Attempt budget of the bird loop. -/
def maxBirdAttempts : Nat := 3

/-- The bird loop guard on the current asset-id pool. -/
def birdPoolEmpty : Option (List Int) → Bool
  | none => true
  | some l => l.length == 0

/-- Bird sampling loop (lines 290-306): up to 3 attempts, no family fallback,
no backoff. -/
def birdLoopGo (env : BirdEnv) (records : List BirdRecord) :
    Nat → Nat → Option (List Int) → Option BirdRecord → List Nat →
    Nat × Option (List Int) × Option BirdRecord × List Nat
  | 0, attempts, ids, sel, rands => (attempts, ids, sel, rands)
  | left + 1, attempts, ids, sel, rands =>
    if birdPoolEmpty ids = true then
      let attempts2 := attempts + 1
      let selectedBird := records.getD (rands.headD 0 % records.length) default
      let ids2 := env.searchByCode selectedBird.Species_code_Cornell_Lab
      if birdPoolEmpty ids2 = false then (attempts2, ids2, some selectedBird, rands.tail)
      else birdLoopGo env records left attempts2 ids2 (some selectedBird) rands.tail
    else (attempts, ids, sel, rands)

/-- Final length guard of the bird generator (lines 328-330). -/
def capBirdText (randomAssetId : Int) (text2 : String) : Except PostError BirdPost :=
  if text2.length > 300 then .error .textTooLong
  else .ok { assetId := randomAssetId, text := text2 }

/-- generateBirdPost: sampling loop, uniform asset pick, post-text
construction with the 300-character limit. -/
def generateBirdPost (env : BirdEnv) (records : List BirdRecord) (rands : List Nat) :
    Except PostError BirdPost :=
  if records.length == 0 then .error .noRecords
  else
    match birdLoopGo env records maxBirdAttempts 0 none none rands with
    | (_, idsOpt, selOpt, rands2) =>
      match idsOpt with
      | none => .error (.birdExhausted maxBirdAttempts)
      | some ids =>
        if ids.length == 0 then .error (.birdExhausted maxBirdAttempts)
        else
          let selectedBird := selOpt.getD default
          let randomAssetId := ids.getD (rands2.headD 0 % ids.length) 0
          let text0 := selectedBird.English_name_AviList ++ " (" ++
            selectedBird.Scientific_name ++ ")\n\nFamily " ++ selectedBird.Family ++
            " (" ++ selectedBird.Family_English_name ++ ")\n"
          let footer := "IUCN status: " ++
            (iucnLookup selectedBird.IUCN_Red_List_Category).getD "Unknown"
          let text1 :=
            if !(selectedBird.Range == "") ∧
                selectedBird.Range.length + text0.length + footer.length < 300 then
              text0 ++ "Range: " ++ selectedBird.Range ++ "\n"
            else text0
          let text2 := if text1.length + footer.length < 300 then text1 ++ footer else text1
          capBirdText randomAssetId text2

/-! Helper lemmas. -/

/-- The keep-predicate of the dead filter is the negation of the spec's
exclusion predicate. -/
theorem itemKept_eq_not_dead (item : MediaItem) :
    itemKeptByDeadFilter item = !tagsContainDead item.tags := by
  cases h : item.tags <;> simp [itemKeptByDeadFilter, tagsContainDead, h]

/-- The head of a nonempty filtered list is the first match of the predicate. -/
theorem find?_eq_of_filter_cons {α : Type} (p : α → Bool) :
    ∀ (l : List α) (m : α) (rest : List α), l.filter p = m :: rest → l.find? p = some m := by
  intro l
  induction l with
  | nil => intro m rest h; simp at h
  | cons a t ih =>
    intro m rest h
    by_cases hpa : p a = true
    · rw [List.filter_cons_of_pos hpa] at h
      injection h with h1 _
      rw [List.find?_cons_of_pos _ hpa, h1]
    · have hpa2 : p a = false := by revert hpa; cases p a <;> simp
      rw [List.filter_cons_of_neg (by rw [hpa2]; exact Bool.false_ne_true)] at h
      rw [List.find?_cons_of_neg _ (by rw [hpa2]; exact Bool.false_ne_true)]
      exact ih m rest h

/-- A modular index into a nonempty list selects a member. -/
theorem getD_mod_mem {α : Type} [Inhabited α] (l : List α) (n : Nat) (h : l ≠ []) :
    l.getD (n % l.length) default ∈ l := by
  have hlt : n % l.length < l.length := Nat.mod_lt _ (List.length_pos.mpr h)
  rw [List.getD_eq_getElem?_getD, List.getElem?_eq_getElem hlt]
  exact List.getElem_mem hlt

/-! Claim C1. -/

/-- C1: for every well-formed array response, searchMacaulayForTaxon never
returns an asset whose tag field (list or single string) contains the
substring dead case-insensitively: the lookup capability never yields such a
record, every id in the returned pool resolves through the lookup to a
dead-free record, and results with no tag field are retained. -/
theorem searchMacaulayForTaxon_excludes_dead (jsonData : List MediaItem) :
    (∀ (assetId : Int) (item : MediaItem),
        (searchMacaulayForTaxon jsonData).getAssetDetails assetId = some item →
        tagsContainDead item.tags = false) ∧
    (∀ assetId ∈ (searchMacaulayForTaxon jsonData).assetIds,
        ∃ item, (searchMacaulayForTaxon jsonData).getAssetDetails assetId = some item ∧
          tagsContainDead item.tags = false) ∧
    (∀ item ∈ jsonData, item.tags = TagsField.missing →
        item ∈ (searchMacaulayForTaxon jsonData).results) := by
  refine ⟨?_, ?_, ?_⟩
  · intro assetId item h
    simp only [MacaulaySearch.getAssetDetails, lookupAssetDetails] at h
    have hmem := List.mem_of_find?_eq_some h
    have hkept : itemKeptByDeadFilter item = true := by
      simp only [searchMacaulayForTaxon] at hmem
      exact (List.mem_filter.mp hmem).2
    rw [itemKept_eq_not_dead] at hkept
    simpa using hkept
  · intro assetId hid
    simp only [searchMacaulayForTaxon, List.mem_filterMap] at hid
    obtain ⟨a, ha, haid⟩ := hid
    have hsome : ((searchMacaulayForTaxon jsonData).results.find?
        (fun item => item.assetId == some assetId)).isSome = true := by
      rw [List.find?_isSome]
      exact ⟨a, by simpa [searchMacaulayForTaxon] using ha, by simp [haid]⟩
    obtain ⟨item, hfind⟩ := Option.isSome_iff_exists.mp hsome
    refine ⟨item, ?_, ?_⟩
    · simpa [MacaulaySearch.getAssetDetails, lookupAssetDetails] using hfind
    · have hmem := List.mem_of_find?_eq_some hfind
      have hkept : itemKeptByDeadFilter item = true := by
        simp only [searchMacaulayForTaxon] at hmem
        exact (List.mem_filter.mp hmem).2
      rw [itemKept_eq_not_dead] at hkept
      simpa using hkept
  · intro item hmem htags
    simp only [searchMacaulayForTaxon]
    exact List.mem_filter.mpr ⟨hmem, by simp [itemKeptByDeadFilter, htags]⟩

/-- Concrete response for the C1 witness: one dead-tagged and one untagged
record. -/
def wDeadItem : MediaItem :=
  { assetId := some 1, tags := .str "Found DEAD on road", taxonomy := none }

/-- Untagged record of the C1 witness response. -/
def wCleanItem : MediaItem :=
  { assetId := some 2, tags := .missing, taxonomy := none }

/-- Witness for C1: on a concrete response, the lookup of the untagged record
is dead-free and the record is retained. -/
theorem searchMacaulayForTaxon_excludes_dead_witness :
    tagsContainDead wCleanItem.tags = false ∧
    wCleanItem ∈ (searchMacaulayForTaxon [wDeadItem, wCleanItem]).results :=
  ⟨(searchMacaulayForTaxon_excludes_dead [wDeadItem, wCleanItem]).1 2 wCleanItem (by decide),
   (searchMacaulayForTaxon_excludes_dead [wDeadItem, wCleanItem]).2.2 wCleanItem
     (by decide) rfl⟩

/-! Claim C3 (corrected). The code's priority-1 name test requires the
lowercased display name to contain the separator followed immediately by the
search term, so the scientific-name segment must start with the term; a
candidate whose segment merely contains the term elsewhere is not a priority-1
match, contrary to the claim as stated. -/

/-- First candidate of the C3 counterexample: its scientific-name segment
contains the term only in non-initial position. -/
def cxA : TaxonomyItem := { name := some "A - Canis lupus", code := some "a,species" }

/-- Earlier candidate of the C3 counterexample with a rank-matching code but a
segment not containing the term. -/
def cxB : TaxonomyItem := { name := some "B - Other", code := some "b,species" }

/-- Counterexample to C3 as stated: in the sequence cxB, cxA the only
candidate satisfying the claim's contains-anywhere priority-1 predicate is
cxA, yet findBestTaxonomyMatch falls through to the priority-2 rule and
returns cxB instead. -/
theorem findBestTaxonomyMatch_c3_counterexample :
    specPriority1Pred "lupus" "species" cxA = true ∧
    specPriority1Pred "lupus" "species" cxB = false ∧
    findBestTaxonomyMatch [cxB, cxA] "lupus" "species" = some cxB ∧
    cxB ≠ cxA := by decide

/-- C3 amended: whenever some candidate's lowercased display name contains the
dash-space separator immediately followed by the search term and its code
segment matches the requested rank (the code's priority-1 predicate),
findBestTaxonomyMatch returns the first such candidate and does not fall
through to the priority-2 or priority-3 rules. -/
theorem findBestTaxonomyMatch_priority1_first (taxonomyData : List TaxonomyItem)
    (searchTerm searchType : String)
    (h : ∃ item ∈ taxonomyData, exactMatchPred searchTerm searchType item = true) :
    findBestTaxonomyMatch taxonomyData searchTerm searchType =
      taxonomyData.find? (exactMatchPred searchTerm searchType) ∧
    (taxonomyData.find? (exactMatchPred searchTerm searchType)).isSome = true := by
  obtain ⟨x, hx, hpx⟩ := h
  have hnonempty : taxonomyData.isEmpty = false := by
    cases taxonomyData with
    | nil => cases hx
    | cons a t => rfl
  have hfilter : taxonomyData.filter (exactMatchPred searchTerm searchType) ≠ [] := by
    intro hc
    have hm : x ∈ taxonomyData.filter (exactMatchPred searchTerm searchType) :=
      List.mem_filter.mpr ⟨hx, hpx⟩
    rw [hc] at hm
    cases hm
  constructor
  · unfold findBestTaxonomyMatch
    rw [hnonempty]
    simp only [Bool.false_eq_true, if_false]
    cases hf : taxonomyData.filter (exactMatchPred searchTerm searchType) with
    | nil => exact absurd hf hfilter
    | cons m rest => exact (find?_eq_of_filter_cons _ _ _ _ hf).symm
  · rw [List.find?_isSome]
    exact ⟨x, hx, hpx⟩

/-- Candidate for the C3 and C4 witnesses whose segment starts with the term. -/
def cxC : TaxonomyItem := { name := some "Wolf - Canis lupus", code := some "canlup,species" }

/-- Witness for the amended C3 at a concrete candidate list. -/
theorem findBestTaxonomyMatch_priority1_first_witness :
    findBestTaxonomyMatch [cxC] "Canis lupus" "species" =
      [cxC].find? (exactMatchPred "Canis lupus" "species") ∧
    ([cxC].find? (exactMatchPred "Canis lupus" "species")).isSome = true :=
  findBestTaxonomyMatch_priority1_first [cxC] "Canis lupus" "species"
    ⟨cxC, by decide, by decide⟩

/-! Claim C4. Determinism for fixed inputs is definitional (the matcher is a
pure function of its arguments); the content proved is that the priority-3
first-candidate fallback is reached only when no rank-matching candidate
exists. -/

/-- C4: on every candidate sequence containing at least one candidate whose
code segment matches the requested rank, findBestTaxonomyMatch returns a
candidate whose code segment matches the requested rank. -/
theorem findBestTaxonomyMatch_returns_rank_match (taxonomyData : List TaxonomyItem)
    (searchTerm searchType : String)
    (h : ∃ item ∈ taxonomyData, typeMatchPred searchType item = true) :
    ∃ r, findBestTaxonomyMatch taxonomyData searchTerm searchType = some r ∧
      typeMatchPred searchType r = true := by
  obtain ⟨x, hx, hpx⟩ := h
  have hnonempty : taxonomyData.isEmpty = false := by
    cases taxonomyData with
    | nil => cases hx
    | cons a t => rfl
  unfold findBestTaxonomyMatch
  rw [hnonempty]
  simp only [Bool.false_eq_true, if_false]
  cases hf : taxonomyData.filter (exactMatchPred searchTerm searchType) with
  | cons m rest =>
    refine ⟨m, rfl, ?_⟩
    have hm : m ∈ taxonomyData.filter (exactMatchPred searchTerm searchType) := by
      rw [hf]
      exact List.mem_cons_self m rest
    have hpm := (List.mem_filter.mp hm).2
    simp only [exactMatchPred, Bool.and_eq_true] at hpm
    exact hpm.2
  | nil =>
    cases hg : taxonomyData.filter (typeMatchPred searchType) with
    | nil =>
      exfalso
      have hm : x ∈ taxonomyData.filter (typeMatchPred searchType) :=
        List.mem_filter.mpr ⟨hx, hpx⟩
      rw [hg] at hm
      cases hm
    | cons m rest =>
      refine ⟨m, rfl, ?_⟩
      have hm : m ∈ taxonomyData.filter (typeMatchPred searchType) := by
        rw [hg]
        exact List.mem_cons_self m rest
      exact (List.mem_filter.mp hm).2

/-- Witness for C4 at a concrete candidate list. -/
theorem findBestTaxonomyMatch_returns_rank_match_witness :
    ∃ r, findBestTaxonomyMatch [cxB, cxA] "lupus" "species" = some r ∧
      typeMatchPred "species" r = true :=
  findBestTaxonomyMatch_returns_rank_match [cxB, cxA] "lupus" "species"
    ⟨cxA, by decide, by decide⟩

/-! Claim C5 (corrected). When a target is pinned, the code's subspecies test
is only the starts-with-target-plus-space check; the claim's additional
disjunct — normalized name equal to the target — is not tested, and the two
disagree on a subspecies-rank record whose scientific name is exactly the
binomial target. -/

/-- Subspecies-rank record whose scientific name equals the target exactly. -/
def cx5Item : MediaItem :=
  { assetId := some 7, tags := .missing,
    taxonomy := some { sciName := some "Odobenus rosmarus", comName := some "Walrus",
                       category := some "subspecies" } }

/-- Counterexample to C5 as stated: under target Odobenus rosmarus the claim's
predicate (normalized name equals the target, or starts-with) accepts cx5Item,
but the code's filter rejects it. -/
theorem speciesSpecificTest_c5_counterexample :
    specClassifierUsable (some "Odobenus rosmarus") cx5Item = true ∧
    speciesSpecificTest (some "Odobenus rosmarus") (some cx5Item) = false := by decide

/-- C5 amended: the classifier usability is exactly — taxonomy and a nonempty
scientific name present, and either rank species, or rank subspecies with no
target supplied (any subspecies accepted), or rank subspecies with the
scientific name starting with the supplied target plus a space; the
equal-to-target disjunct of the original claim is dropped. -/
theorem speciesSpecificTest_characterization (target : Option String)
    (assetDetails : Option MediaItem) :
    speciesSpecificTest target assetDetails = amendedUsable target assetDetails := by
  cases assetDetails with
  | none => rfl
  | some item =>
    cases htax : item.taxonomy with
    | none => simp [speciesSpecificTest, amendedUsable, htax, Option.bind]
    | some tax =>
      simp only [speciesSpecificTest, amendedUsable, htax, Option.bind]
      cases hs : truthyS tax.sciName with
      | false => simp
      | true =>
        simp only [Bool.not_true, Bool.true_and, if_false]
        cases hsp : tax.category == some "species" with
        | true => simp [hsp]
        | false =>
          simp only [hsp, Bool.false_or, if_false]
          cases hss : tax.category == some "subspecies" with
          | true => cases target <;> simp [hss]
          | false => simp [hss]

/-! Claim C6. -/

/-- C6: for a subspecies-rank taxonomy whose scientific name splits on single
spaces into three or more tokens, the normalized scientific name — shared by
the display site and the reference-list re-lookup site — is exactly the first
two tokens joined by a space. -/
theorem normalizedSciNameFor_subspecies (tax : Taxonomy) (s t1 t2 : String)
    (rest : List String) (hcat : tax.category = some "subspecies")
    (hsci : tax.sciName = some s) (hsplit : splitStr s " " = t1 :: t2 :: rest)
    (_hthree : rest ≠ []) :
    normalizedSciNameFor tax = t1 ++ " " ++ t2 := by
  simp [normalizedSciNameFor, normalizeToSpecies, hcat, hsci, hsplit]

/-- Subspecies taxonomy of the C6 witness. -/
def cx6Tax : Taxonomy :=
  { sciName := some "Odobenus rosmarus divergens", comName := some "Atlantic Walrus",
    category := some "subspecies" }

/-- Witness for C6 at a concrete trinomial subspecies name. -/
theorem normalizedSciNameFor_subspecies_witness :
    normalizedSciNameFor cx6Tax = "Odobenus rosmarus" :=
  normalizedSciNameFor_subspecies cx6Tax "Odobenus rosmarus divergens" "Odobenus"
    "rosmarus" ["divergens"] rfl rfl (by decide) (by decide)

/-! Claim C7. The reroll loop is structurally bounded by the rerolls-left
fuel, so getRandomMammalRecord is total; on a list of exclusively
overrepresented records it performs exactly 2 rerolls and accepts the third
draw. -/

/-- The sampler always returns some record of the list. -/
theorem getRandomMammalRecordGo_mem (records : List MammalRecord) (h : records ≠ []) :
    ∀ (left : Nat) (rands : List Nat) (count : Nat),
      (getRandomMammalRecordGo records left rands count).1 ∈ records := by
  intro left
  induction left with
  | zero =>
    intro rands count
    exact getD_mod_mem records (rands.headD 0) h
  | succ n ih =>
    intro rands count
    rw [getRandomMammalRecordGo]
    by_cases hsr : shouldReroll (records.getD (rands.headD 0 % records.length) default) = true
    · rw [if_pos hsr]
      exact ih rands.tail (count + 1)
    · rw [if_neg hsr]
      exact getD_mod_mem records (rands.headD 0) h

/-- C7: getRandomMammalRecord terminates with a member of every nonempty
reference list, and when every record of the list is overrepresented it
performs exactly 2 rerolls and returns the third draw. -/
theorem getRandomMammalRecord_overrepresented (records : List MammalRecord)
    (r1 r2 r3 : Nat) (rest : List Nat) (hne : records ≠ []) :
    (∀ rands, (getRandomMammalRecord records rands).1 ∈ records) ∧
    ((∀ m ∈ records, shouldReroll m = true) →
      getRandomMammalRecord records (r1 :: r2 :: r3 :: rest) =
        (records.getD (r3 % records.length) default, rest, 2)) := by
  constructor
  · intro rands
    exact getRandomMammalRecordGo_mem records hne 2 rands 0
  · intro hall
    have h1 : shouldReroll (records.getD (r1 % records.length) default) = true :=
      hall _ (getD_mod_mem records r1 hne)
    have h2 : shouldReroll (records.getD (r2 % records.length) default) = true :=
      hall _ (getD_mod_mem records r2 hne)
    unfold getRandomMammalRecord
    rw [getRandomMammalRecordGo]
    simp only [List.headD_cons, List.tail_cons]
    rw [if_pos h1, getRandomMammalRecordGo]
    simp only [List.headD_cons, List.tail_cons]
    rw [if_pos h2, getRandomMammalRecordGo]
    simp only [List.headD_cons, List.tail_cons]

/-- Overrepresented record of the C7 witness. -/
def wMurid : MammalRecord :=
  { sciName := "Mus_musculus", mainCommonName := "House Mouse", order := "Rodentia",
    family := "Muridae", continentDistribution := "", biogeographicRealm := "",
    iucnStatus := "LC", distributionNotes := "" }

/-- Witness for C7: on a singleton Muridae list the sampler rerolls twice and
accepts the third draw. -/
theorem getRandomMammalRecord_overrepresented_witness :
    (getRandomMammalRecord [wMurid] [0, 1, 2, 9]).1 ∈ [wMurid] ∧
    getRandomMammalRecord [wMurid] [0, 1, 2, 9] = (wMurid, [9], 2) := by
  have h := getRandomMammalRecord_overrepresented [wMurid] 0 1 2 [9] (by decide)
  refine ⟨h.1 [0, 1, 2, 9], ?_⟩
  rw [h.2 (by decide)]
  rfl

/-! Claim C10. The in-filter dead-tag check of the source sits after an
unconditional return and is unreachable, so it has no semantics in the
embedding; consequently the filter decision, in both the target-pinned and
the untargeted form, is a function of the taxonomy field alone. -/

/-- C10: two family-search results with identical taxonomy — regardless of
their tag fields — receive the same accept/reject decision from the filter,
for every (or no) pinned target. -/
theorem speciesSpecificTest_taxonomy_only (target : Option String) (a b : MediaItem)
    (h : a.taxonomy = b.taxonomy) :
    speciesSpecificTest target (some a) = speciesSpecificTest target (some b) := by
  simp only [speciesSpecificTest, Option.bind, h]

/-- Untagged record of the C10 witness. -/
def cx10A : MediaItem :=
  { assetId := some 1, tags := .missing,
    taxonomy := some { sciName := some "Canis lupus", comName := some "Gray Wolf",
                       category := some "species" } }

/-- Dead-tagged record of the C10 witness with the same taxonomy. -/
def cx10B : MediaItem :=
  { assetId := some 2, tags := .str "dead on road",
    taxonomy := some { sciName := some "Canis lupus", comName := some "Gray Wolf",
                       category := some "species" } }

/-- Witness for C10: identical taxonomy but different tag fields, classified
identically by the untargeted filter. -/
theorem speciesSpecificTest_taxonomy_only_witness :
    speciesSpecificTest none (some cx10A) = speciesSpecificTest none (some cx10B) ∧
    cx10A.tags ≠ cx10B.tags ∧ tagsContainDead cx10B.tags = true :=
  ⟨speciesSpecificTest_taxonomy_only none cx10A cx10B rfl, by decide, by decide⟩

/-! Claims C2, C8, C9: properties of the resolution driver. -/

/-- An empty pool is not a nonempty pool. -/
theorem poolNonempty_false_of_empty (res : Option SearchResult)
    (h : poolEmpty res = true) : poolNonempty res = false := by
  cases res with
  | none => rfl
  | some sr =>
    simp only [poolEmpty] at h
    simp [poolNonempty, h]

/-- On an empty family outcome the family-tier block passes the outcome
through unaccepted. -/
theorem familyStep_of_empty (target : Option String) (res : Option SearchResult)
    (h : poolEmpty res = true) : familyStep target res = (res, false) := by
  cases res with
  | none => rfl
  | some sr =>
    simp only [poolEmpty] at h
    simp [familyStep, h]

/-- An absent or empty pool at final selection is the exhaustion failure. -/
theorem finalizeMammal_of_empty (records : List MammalRecord) (res : Option SearchResult)
    (sel : MammalRecord) (rands : List Nat) (h : poolEmpty res = true) :
    finalizeMammal records res sel rands = .error (.exhausted maxMammalAttempts) := by
  cases res with
  | none => rfl
  | some sr =>
    simp only [poolEmpty] at h
    simp [finalizeMammal, h]

/-- Trace produced by a run of the sampling loop in which every attempt
misses: one numbered attempt event per draw, with the fixed backoff after
every failed attempt that leaves attempts remaining. -/
def expectedTrace : Nat → Nat → List TraceEv
  | _, 0 => []
  | attempts, left + 1 =>
    TraceEv.attempt (attempts + 1) ::
      ((if attempts + 1 < maxMammalAttempts then [TraceEv.delay 5000] else []) ++
        expectedTrace (attempts + 1) left)

/-- When every search of the environment yields an empty pool, the sampling
loop consumes its whole fuel, increments the attempt counter once per unit of
fuel, emits exactly the expected trace, and leaves an empty pool. -/
theorem mammalLoopGo_all_empty (env : MacaulayEnv) (records : List MammalRecord)
    (hsearch : ∀ term ty, poolEmpty (env.search term ty) = true) :
    ∀ (left attempts : Nat) (res : Option SearchResult) (sel : Option MammalRecord)
      (rands : List Nat) (tr : List TraceEv), poolEmpty res = true →
      ∃ res2 sel2 rands2,
        mammalLoopGo env records left attempts res sel rands tr =
          ⟨res2, sel2, attempts + left, rands2, tr ++ expectedTrace attempts left⟩ ∧
        poolEmpty res2 = true := by
  intro left
  induction left with
  | zero =>
    intro attempts res sel rands tr hres
    exact ⟨res, sel, rands, by simp [mammalLoopGo, expectedTrace], hres⟩
  | succ n ih =>
    intro attempts res sel rands tr hres
    have hstep : mammalLoopGo env records (n + 1) attempts res sel rands tr =
        mammalLoopGo env records n (attempts + 1)
          (familyStep none (env.search (getRandomMammalRecord records rands).1.family
            "family")).1
          (some (getRandomMammalRecord records rands).1)
          (getRandomMammalRecord records rands).2.1
          ((tr ++ [TraceEv.attempt (attempts + 1)]) ++
            (if attempts + 1 < maxMammalAttempts then [TraceEv.delay 5000] else [])) := by
      rw [mammalLoopGo, if_pos hres]
      rcases hg : getRandomMammalRecord records rands with ⟨sm, r2, k⟩
      dsimp only
      have hsp : poolNonempty (env.search (replaceFirstStr sm.sciName "_" " ")
          "species") = false :=
        poolNonempty_false_of_empty _ (hsearch _ _)
      rw [hsp]
      simp only [Bool.false_eq_true, if_false]
      rw [familyStep_of_empty none _ (hsearch sm.family "family")]
      dsimp only
      simp only [Bool.false_eq_true, if_false]
    have hfam : poolEmpty (familyStep none
        (env.search (getRandomMammalRecord records rands).1.family "family")).1 = true := by
      rw [familyStep_of_empty none _ (hsearch _ _)]
      exact hsearch _ _
    obtain ⟨res2, sel2, rands2, heq, hres2⟩ := ih (attempts + 1) _
      (some (getRandomMammalRecord records rands).1)
      (getRandomMammalRecord records rands).2.1
      ((tr ++ [TraceEv.attempt (attempts + 1)]) ++
        (if attempts + 1 < maxMammalAttempts then [TraceEv.delay 5000] else []))
      hfam
    refine ⟨res2, sel2, rands2, ?_, hres2⟩
    rw [hstep, heq]
    congr 1 <;> first
      | rfl
      | omega
      | simp [expectedTrace, List.append_assoc]

/-- A post emitted by the final length guard has the taxonomy it was built
from and a text within the 300-character limit. -/
theorem capPostText_ok (randomAssetId : Int) (tax : Taxonomy) (postMammal : MammalRecord)
    (text2 : String) (p : MammalPost)
    (h : capPostText randomAssetId tax postMammal text2 = .ok p) :
    p.taxonomy = tax ∧ p.text.length ≤ 300 := by
  unfold capPostText at h
  by_cases hl : text2.length > 300
  · rw [if_pos hl] at h
    exact (Except.noConfusion h)
  · rw [if_neg hl] at h
    injection h with hp
    subst hp
    exact ⟨rfl, by dsimp only; omega⟩

/-- A successfully built post carries a species- or subspecies-rank taxonomy
and a text within the 300-character limit. -/
theorem buildMammalPost_ok_props (records : List MammalRecord)
    (actualTaxonomy : Option Taxonomy) (selectedMammal : MammalRecord)
    (randomAssetId : Int) (p : MammalPost)
    (h : buildMammalPost records actualTaxonomy selectedMammal randomAssetId = .ok p) :
    (p.taxonomy.category = some "species" ∨ p.taxonomy.category = some "subspecies") ∧
    p.text.length ≤ 300 := by
  unfold buildMammalPost at h
  cases actualTaxonomy with
  | none => exact (Except.noConfusion h)
  | some tax =>
    dsimp only at h
    by_cases hcond : (truthyS tax.sciName && truthyS tax.comName &&
        (tax.category == some "species" || tax.category == some "subspecies")) = true
    case neg =>
      rw [if_neg hcond] at h
      exact (Except.noConfusion h)
    case pos =>
      rw [if_pos hcond] at h
      simp only [Bool.and_eq_true, Bool.or_eq_true, beq_iff_eq] at hcond
      obtain ⟨htax, hlen⟩ := capPostText_ok _ _ _ _ _ h
      rw [htax]
      exact ⟨hcond.2, hlen⟩

/-- A successful final selection carries a species- or subspecies-rank
taxonomy and a post text within the 300-character limit. -/
theorem finalizeMammal_ok_props (records : List MammalRecord) (res : Option SearchResult)
    (selectedMammal : MammalRecord) (rands : List Nat) (p : MammalPost)
    (h : finalizeMammal records res selectedMammal rands = .ok p) :
    (p.taxonomy.category = some "species" ∨ p.taxonomy.category = some "subspecies") ∧
    p.text.length ≤ 300 := by
  unfold finalizeMammal at h
  cases res with
  | none => exact (Except.noConfusion h)
  | some sr =>
    dsimp only at h
    by_cases hlen : (sr.assetIds.length == 0) = true
    case pos =>
      rw [if_pos hlen] at h
      exact (Except.noConfusion h)
    case neg =>
      rw [if_neg hlen] at h
      cases hint : integrityCheck sr.details (actualTaxonomyOf sr.details
          (sr.assetIds.getD (rands.headD 0 % sr.assetIds.length) 0)) with
      | error e =>
        rw [hint] at h
        exact (Except.noConfusion h)
      | ok u =>
        rw [hint] at h
        exact buildMammalPost_ok_props _ _ _ _ _ h

/-- A resolution call, in either mode, only emits a post with these
properties. -/
theorem generateMammalPost_ok_props (env : MacaulayEnv) (records : List MammalRecord)
    (t : Option String) (rands : List Nat) (p : MammalPost)
    (h : (generateMammalPost env records t rands).1 = .ok p) :
    (p.taxonomy.category = some "species" ∨ p.taxonomy.category = some "subspecies") ∧
    p.text.length ≤ 300 := by
  unfold generateMammalPost at h
  by_cases hlen : (records.length == 0) = true
  case pos =>
    rw [if_pos hlen] at h
    exact (Except.noConfusion h)
  case neg =>
    rw [if_neg hlen] at h
    cases t with
    | none =>
      dsimp only at h
      exact finalizeMammal_ok_props _ _ _ _ _ h
    | some name =>
      dsimp only at h
      cases hf : records.find? (fun m => m.sciName == name) with
      | none =>
        rw [hf] at h
        exact (Except.noConfusion h)
      | some testMammal =>
        rw [hf] at h
        dsimp only at h
        by_cases hsp : poolNonempty (env.search
            (replaceFirstStr testMammal.sciName "_" " ") "species") = true
        case pos =>
          rw [if_pos hsp] at h
          exact finalizeMammal_ok_props _ _ _ _ _ h
        case neg =>
          rw [if_neg hsp] at h
          by_cases hpe : poolEmpty (familyStep
              (some (replaceFirstStr testMammal.sciName "_" " "))
              (env.search testMammal.family "family")).1 = true
          case pos =>
            rw [if_pos hpe] at h
            exact (Except.noConfusion h)
          case neg =>
            rw [if_neg hpe] at h
            exact finalizeMammal_ok_props _ _ _ _ _ h

/-- A bird post emitted by the final length guard is within the limit. -/
theorem capBirdText_ok (randomAssetId : Int) (text2 : String) (p : BirdPost)
    (h : capBirdText randomAssetId text2 = .ok p) : p.text.length ≤ 300 := by
  unfold capBirdText at h
  by_cases hl : text2.length > 300
  · rw [if_pos hl] at h
    exact (Except.noConfusion h)
  · rw [if_neg hl] at h
    injection h with hp
    subst hp
    dsimp only
    omega

/-- The bird generator only returns texts within the limit. -/
theorem generateBirdPost_ok_length (env : BirdEnv) (records : List BirdRecord)
    (rands : List Nat) (p : BirdPost) (h : generateBirdPost env records rands = .ok p) :
    p.text.length ≤ 300 := by
  unfold generateBirdPost at h
  by_cases hlen0 : (records.length == 0) = true
  case pos =>
    rw [if_pos hlen0] at h
    exact (Except.noConfusion h)
  case neg =>
    rw [if_neg hlen0] at h
    rcases hbl : birdLoopGo env records maxBirdAttempts 0 none none rands with
      ⟨att, idsOpt, selOpt, rands2⟩
    rw [hbl] at h
    dsimp only at h
    cases idsOpt with
    | none => exact (Except.noConfusion h)
    | some ids =>
      dsimp only at h
      by_cases hl : (ids.length == 0) = true
      case pos =>
        rw [if_pos hl] at h
        exact (Except.noConfusion h)
      case neg =>
        rw [if_neg hl] at h
        exact capBirdText_ok _ _ _ h

/-- C2: in both the single-target test mode and the sampling mode, a resolved
mammal post is emitted only when the finally selected asset's own taxonomy —
re-classified at final selection — has rank species or subspecies; any other
rank, or a missing taxonomy, makes the call fail with an error instead. -/
theorem generateMammalPost_ok_rank (env : MacaulayEnv) (records : List MammalRecord)
    (testSpeciesSciName : Option String) (rands : List Nat) (p : MammalPost)
    (h : (generateMammalPost env records testSpeciesSciName rands).1 = .ok p) :
    p.taxonomy.category = some "species" ∨ p.taxonomy.category = some "subspecies" :=
  (generateMammalPost_ok_props env records testSpeciesSciName rands p h).1

/-- Reference record of the successful-run witnesses. -/
def wWalrus : MammalRecord :=
  { sciName := "Odobenus_rosmarus", mainCommonName := "Walrus", order := "Carnivora",
    family := "Odobenidae", continentDistribution := "North America (Continent)",
    biogeographicRealm := "Nearctic", iucnStatus := "VU", distributionNotes := "" }

/-- Media record of the successful-run witnesses. -/
def wWalrusItem : MediaItem :=
  { assetId := some 10, tags := .missing,
    taxonomy := some { sciName := some "Odobenus rosmarus", comName := some "Walrus",
                       category := some "species" } }

/-- Environment of the successful-run witnesses: the species search for the
walrus succeeds with one asset, everything else fails. -/
def wEnvOk : MacaulayEnv :=
  { search := fun term ty =>
      if term == "Odobenus rosmarus" && ty == "species" then
        some { assetIds := [10], details := some [wWalrusItem] }
      else none }

/-- Post returned by the successful mammal run of the witnesses. -/
def wPost : MammalPost :=
  { assetId := 10,
    taxonomy := { sciName := some "Odobenus rosmarus", comName := some "Walrus",
                  category := some "species" },
    postMammal := wWalrus,
    text := "Walrus (Odobenus rosmarus)\n\nFamily Odobenidae\nRange: Nearctic (North America)\nIUCN status: Vulnerable" }

/-- Witness for C2: a concrete successful sampling-mode run yields a
species-rank taxonomy. -/
theorem generateMammalPost_ok_rank_witness :
    wPost.taxonomy.category = some "species" ∨ wPost.taxonomy.category = some "subspecies" :=
  generateMammalPost_ok_rank wEnvOk [wWalrus] none [0, 0] wPost rfl

/-- C8: in sampling mode, when every search of the environment comes back
empty, the loop performs exactly 5 attempts — numbered 1 through 5 in the
trace, with the fixed 5000 ms backoff between a failed attempt and the next
redraw and none after the last — and the call fails with the terminal
exhaustion error carrying attempt count 5. -/
theorem generateMammalPost_exhaustion (env : MacaulayEnv) (records : List MammalRecord)
    (rands : List Nat) (hne : records ≠ [])
    (hsearch : ∀ term ty, poolEmpty (env.search term ty) = true) :
    (generateMammalPost env records none rands).1 = .error (.exhausted 5) ∧
    (generateMammalPost env records none rands).2 =
      [TraceEv.attempt 1, TraceEv.delay 5000, TraceEv.attempt 2, TraceEv.delay 5000,
       TraceEv.attempt 3, TraceEv.delay 5000, TraceEv.attempt 4, TraceEv.delay 5000,
       TraceEv.attempt 5] := by
  have hlen : (records.length == 0) = false := by
    cases records with
    | nil => exact absurd rfl hne
    | cons a t => simp
  obtain ⟨res2, sel2, rands2, heq, hres2⟩ :=
    mammalLoopGo_all_empty env records hsearch maxMammalAttempts 0 none none rands [] rfl
  unfold generateMammalPost
  rw [hlen]
  simp only [Bool.false_eq_true, if_false]
  rw [heq]
  constructor
  · exact finalizeMammal_of_empty records res2 (sel2.getD default) rands2 hres2
  · rfl

/-- Environment of the C8 witness: every search fails. -/
def wEnvEmpty : MacaulayEnv := { search := fun _ _ => none }

/-- Witness for C8: a concrete all-miss run exhausts after exactly 5 attempts
with 4 interleaved backoffs. -/
theorem generateMammalPost_exhaustion_witness :
    (generateMammalPost wEnvEmpty [wWalrus] none []).1 = .error (.exhausted 5) ∧
    (generateMammalPost wEnvEmpty [wWalrus] none []).2 =
      [TraceEv.attempt 1, TraceEv.delay 5000, TraceEv.attempt 2, TraceEv.delay 5000,
       TraceEv.attempt 3, TraceEv.delay 5000, TraceEv.attempt 4, TraceEv.delay 5000,
       TraceEv.attempt 5] :=
  generateMammalPost_exhaustion wEnvEmpty [wWalrus] [] (by decide) (fun _ _ => rfl)

/-- C9: whenever generateBirdPost or generateMammalPost returns normally, the
returned post text has length at most 300 characters; a build whose text
exceeds the limit fails with an error instead of returning a post. -/
theorem post_text_length_le_300 :
    (∀ (env : BirdEnv) (records : List BirdRecord) (rands : List Nat) (p : BirdPost),
        generateBirdPost env records rands = .ok p → p.text.length ≤ 300) ∧
    (∀ (env : MacaulayEnv) (records : List MammalRecord) (t : Option String)
        (rands : List Nat) (p : MammalPost),
        (generateMammalPost env records t rands).1 = .ok p → p.text.length ≤ 300) := by
  constructor
  · intro env records rands p h
    exact generateBirdPost_ok_length env records rands p h
  · intro env records t rands p h
    exact (generateMammalPost_ok_props env records t rands p h).2

/-- Reference record of the bird-run witness. -/
def wBird : BirdRecord :=
  { Order := "Passeriformes", Family := "Tesiidae", Family_English_name := "Tesias",
    Scientific_name := "Tesia everetti", English_name_AviList := "Russet-capped Tesia",
    Range := "Flores", IUCN_Red_List_Category := "LC",
    Species_code_Cornell_Lab := "gybtes1" }

/-- Environment of the bird-run witness: only the walrus code misses. -/
def wBEnv : BirdEnv :=
  { searchByCode := fun code => if code == "gybtes1" then some [123] else none }

/-- Post returned by the successful bird run of the witness. -/
def wBirdPost : BirdPost :=
  { assetId := 123,
    text := "Russet-capped Tesia (Tesia everetti)\n\nFamily Tesiidae (Tesias)\nRange: Flores\nIUCN status: Least Concern" }

/-- Witness for C9: concrete successful bird and mammal runs stay within the
300-character limit. -/
theorem post_text_length_le_300_witness :
    wBirdPost.text.length ≤ 300 ∧ wPost.text.length ≤ 300 :=
  ⟨post_text_length_le_300.1 wBEnv [wBird] [0, 0] wBirdPost rfl,
   post_text_length_le_300.2 wEnvOk [wWalrus] none [0, 0] wPost rfl⟩
